import Mathlib

/-!
Verification of the go-dbus client library core against its specification.

Shallow embedding conventions:
* bytes are `Nat` values (written modulo 256 where the Go code truncates);
* Go `uint32`/`uint64` arithmetic is `Nat` with explicit `% 2^32` / `% 2^64`;
* Go strings that carry raw bytes are `List Nat`; identifier-like strings
  (names, match-rule fields) are Lean `String`;
* IEEE doubles are carried as their 64-bit pattern (`math.Float64frombits` /
  `binary.Write` only move the bits, so this is exact);
* fallible Go functions return `Except`.

Sources embedded: types.go (signature engine), unnamed/part_006 (encoder),
newmarshal.go (decoder), matchrule.go and unnamed/part_002 (match rules),
unnamed/part_009 (signal watch set), unnamed/part_004 and newmarshal_test.go
(serial allocation, Send), message.go (setSerial), auth.go (SASL loop),
dbus.go (name-owner tracker, BusName.request).
-/

namespace GoDBus

/-- Byte order selector, mirroring `encoding/binary.ByteOrder`. -/
inductive Endian
  | little
  | big
deriving DecidableEq

/-- Byte of `data` at index `i`; out-of-range reads yield 0 and are only ever
used behind the source's explicit bounds checks. -/
def byteAt (data : List Nat) (i : Nat) : Nat := data.getD i 0

/-- Little-endian value of `n` bytes starting at `off`. -/
def leNum (data : List Nat) (off n : Nat) : Nat :=
  match n with
  | 0 => 0
  | k + 1 => byteAt data off + 256 * leNum data (off + 1) k

/-- Big-endian value of `n` bytes starting at `off`. -/
def beNum (data : List Nat) (off n : Nat) : Nat :=
  match n with
  | 0 => 0
  | k + 1 => byteAt data off * 256 ^ k + beNum data (off + 1) k

/-- Read an `n`-byte integer with the given byte order. -/
def orderNum (o : Endian) (data : List Nat) (off n : Nat) : Nat :=
  match o with
  | .little => leNum data off n
  | .big => beNum data off n

/-- Little-endian byte list of `n`, `width` bytes. -/
def putLE (n width : Nat) : List Nat :=
  match width with
  | 0 => []
  | k + 1 => n % 256 :: putLE (n / 256) k

/-- Bytes written by `binary.Write` for an integer of `width` bytes. -/
def putNum (o : Endian) (n width : Nat) : List Nat :=
  match o with
  | .little => putLE n width
  | .big => (putLE n width).reverse

/-- Two's-complement bit pattern (as a `Nat`) of the integer `i` at width `w`. -/
def intBits (w : Nat) (i : Int) : Nat := (i % ((2 ^ w : Nat) : Int)).toNat

/-- Value of the two's-complement pattern `n` at width `w`, mirroring Go's
conversion from the unsigned read to the signed integer type. -/
def toSigned (w n : Nat) : Int :=
  if n < 2 ^ (w - 1) then (n : Int) else (n : Int) - (2 ^ w : Nat)

/-- D-Bus-representable native types, as discriminated by `reflect` in
types.go `getSignature` (pointer indirection is transparent and elided). -/
inductive DType
  | byte
  | boolean
  | int16
  | uint16
  | int32
  | uint32
  | int64
  | uint64
  | double
  | string
  | objectPath
  | signature
  | array (elem : DType)
  | dict (key value : DType)
  | structT (fields : List DType)
  | variant

/-- D-Bus-representable native values handed to `encoder.appendValue`.
Strings carry raw bytes; arrays and dicts carry their static element types
(`reflect.Type.Elem()`/`Key()`), which determine signatures even when empty. -/
inductive DValue
  | byte (b : Nat)
  | boolean (b : Bool)
  | int16 (i : Int)
  | uint16 (n : Nat)
  | int32 (i : Int)
  | uint32 (n : Nat)
  | int64 (i : Int)
  | uint64 (n : Nat)
  | double (bits : Nat)
  | string (s : List Nat)
  | objectPath (s : List Nat)
  | signature (s : List Nat)
  | array (elemT : DType) (elems : List DValue)
  | dict (keyT valT : DType) (entries : List (DValue × DValue))
  | structV (fields : List DValue)
  | variant (inner : DValue)

/-- Opening dict-entry brace typecode. -/
def lbrace : Char := Char.ofNat 123

/-- Closing dict-entry brace typecode. -/
def rbrace : Char := Char.ofNat 125

mutual

/-- types.go `getSignature`: element signature of a native type. The
`HasObjectPath` capability check corresponds to the `objectPath` case; the
Go failure branch covers only types outside this grammar, so the embedding
is total. -/
def getSignature : DType → List Char
  | .objectPath => ['o']
  | .byte => ['y']
  | .boolean => ['b']
  | .int16 => ['n']
  | .uint16 => ['q']
  | .int32 => ['i']
  | .uint32 => ['u']
  | .int64 => ['x']
  | .uint64 => ['t']
  | .double => ['d']
  | .signature => ['g']
  | .string => ['s']
  | .array t => 'a' :: getSignature t
  | .dict k v => ['a', lbrace] ++ getSignature k ++ getSignature v ++ [rbrace]
  | .structT fs => '(' :: getSignatureFields fs ++ [')']
  | .variant => ['v']

/-- Concatenated field signatures of a struct type (the field loop of
`getSignature`). -/
def getSignatureFields : List DType → List Char
  | [] => []
  | t :: ts => getSignature t ++ getSignatureFields ts

end

mutual

/-- Static type of a value, as `reflect.TypeOf` would report it. -/
def typeOf : DValue → DType
  | .byte _ => .byte
  | .boolean _ => .boolean
  | .int16 _ => .int16
  | .uint16 _ => .uint16
  | .int32 _ => .int32
  | .uint32 _ => .uint32
  | .int64 _ => .int64
  | .uint64 _ => .uint64
  | .double _ => .double
  | .string _ => .string
  | .objectPath _ => .objectPath
  | .signature _ => .signature
  | .array t _ => .array t
  | .dict k v _ => .dict k v
  | .structV fields => .structT (typeOfFields fields)
  | .variant _ => .variant

/-- Field types of a struct value. -/
def typeOfFields : List DValue → List DType
  | [] => []
  | v :: vs => typeOf v :: typeOfFields vs

end

/-- The marshalling state of unnamed/part_006: accumulated signature,
byte buffer, byte order and the caller-declared baseline offset. -/
structure encoder where
  signature : List Char
  data : List Nat
  order : Endian
  offset : Nat

/-- part_006 `encoder.align`: pad `data` with zero bytes until
`data.Len() + offset` is a multiple of `alignment`. -/
def encoder.align (e : encoder) (alignment : Nat) : encoder :=
  let pad := (alignment - (e.data.length + e.offset) % alignment) % alignment
  { e with data := e.data ++ List.replicate pad 0 }

/-- Byte encoding of a `Signature` value (1-byte length, bytes, nul), together
with its `g` signature contribution: exactly what `appendValue` does when
handed a value of `typeSignature`. Factored out because the variant case of
`appendValue` re-enters `appendValue` with the constructed `variantSig`. -/
def encoder.appendSigValue (e : encoder) (s : List Nat) : encoder :=
  let e := { e with signature := e.signature ++ ['g'] }
  let e := e.align 1
  { e with data := e.data ++ [s.length % 256] ++ s ++ [0] }

mutual

/-- part_006 `encoder.appendValue`. Differences forced by the embedding:
the `getSignature` error branch is unreachable over `DValue` (see above), so
the function is total; the `HasObjectPath` conversion turns the `objectPath`
case into plain string encoding; Go's reflection `switch` becomes a match on
the value. Note the child-encoder baseline for arrays and dicts is
`data.Len() + 4`, computed before the parent's `align(4)` and without the
parent's own `offset`, exactly as in the source. -/
def appendValue (e : encoder) (v : DValue) : encoder :=
  let sig := getSignature (typeOf v)
  let e := { e with signature := e.signature ++ sig }
  match v with
  | .byte b =>
    let e := e.align 1
    { e with data := e.data ++ [b % 256] }
  | .boolean b =>
    let e := e.align 4
    { e with data := e.data ++ putNum e.order (if b then 1 else 0) 4 }
  | .int16 i =>
    let e := e.align 2
    { e with data := e.data ++ putNum e.order (intBits 16 i) 2 }
  | .uint16 n =>
    let e := e.align 2
    { e with data := e.data ++ putNum e.order (n % 2 ^ 16) 2 }
  | .int32 i =>
    let e := e.align 4
    { e with data := e.data ++ putNum e.order (intBits 32 i) 4 }
  | .uint32 n =>
    let e := e.align 4
    { e with data := e.data ++ putNum e.order (n % 2 ^ 32) 4 }
  | .int64 i =>
    let e := e.align 8
    { e with data := e.data ++ putNum e.order (intBits 64 i) 8 }
  | .uint64 n =>
    let e := e.align 8
    { e with data := e.data ++ putNum e.order (n % 2 ^ 64) 8 }
  | .double bits =>
    let e := e.align 8
    { e with data := e.data ++ putNum e.order (bits % 2 ^ 64) 8 }
  | .string s =>
    let e := e.align 4
    { e with data := e.data ++ putNum e.order (s.length % 2 ^ 32) 4 ++ s ++ [0] }
  | .objectPath s =>
    let e := e.align 4
    { e with data := e.data ++ putNum e.order (s.length % 2 ^ 32) 4 ++ s ++ [0] }
  | .signature s =>
    let e := e.align 1
    { e with data := e.data ++ [s.length % 256] ++ s ++ [0] }
  | .array _ elems =>
    let content : encoder :=
      { signature := [], data := [], order := e.order, offset := e.data.length + 4 }
    let content := appendAll content elems
    let e := e.align 4
    { e with data := e.data ++ putNum e.order (content.data.length % 2 ^ 32) 4
        ++ content.data }
  | .dict _ _ entries =>
    let content : encoder :=
      { signature := [], data := [], order := e.order, offset := e.data.length + 4 }
    let content := appendEntries content entries
    let e := e.align 4
    { e with data := e.data ++ putNum e.order (content.data.length % 2 ^ 32) 4
        ++ content.data }
  | .structV fields =>
    let e := e.align 8
    let savedSig := e.signature
    let e := appendAll e fields
    { e with signature := savedSig }
  | .variant inner =>
    let variantSig := getSignature (typeOf inner)
    let savedSig := e.signature
    let e := e.appendSigValue (variantSig.map Char.toNat)
    let e := appendValue e inner
    { e with signature := savedSig }

/-- Element loop shared by the array and struct cases of `appendValue`. -/
def appendAll (e : encoder) : List DValue → encoder
  | [] => e
  | v :: vs => appendAll (appendValue e v) vs

/-- Entry loop of the map case of `appendValue`: each entry is aligned to 8,
then key and value are appended. -/
def appendEntries (e : encoder) : List (DValue × DValue) → encoder
  | [] => e
  | (k, v) :: rest =>
    let e := e.align 8
    let e := appendValue e k
    let e := appendValue e v
    appendEntries e rest

end

/-- part_006 `newEncoder` with a nil initial buffer. -/
def newEncoder (signature : List Char) (order : Endian) : encoder :=
  { signature := signature, data := [], order := order, offset := 0 }

/-- part_006 `encoder.Append`: append each argument in turn. -/
def encoder.Append (e : encoder) (args : List DValue) : encoder :=
  appendAll e args

/-! ## Decoder (newmarshal.go) -/

/-- Decoder outcomes that abort `decodeValue`. `bufferOverrun` and
`signatureOverrun` are the two error values of newmarshal.go;
`typeMismatch` is the trailing "Could not decode X to Y" error;
`panicIndex` marks the Go runtime panic raised by `self.signature[self.sigOffset]`
when `sigOffset` equals the signature length (the guard only rejects
`len < sigOffset`); `outOfFuel` is an artifact of the bounded embedding of
the element loop and is never reached with the generous fuel used by `Decode`. -/
inductive DecErr
  | bufferOverrun
  | signatureOverrun
  | typeMismatch (code : Char)
  | panicIndex
  | outOfFuel
deriving DecidableEq

/-- Destination shapes accepted by `decoder.decodeValue` (the `reflect.Kind`
of the pointed-to argument). `iface` is an empty-interface destination. -/
inductive Dest
  | byte
  | boolean
  | int16
  | uint16
  | int32
  | uint32
  | int64
  | uint64
  | double
  | string
  | slice (elem : Dest)
  | iface

/-- Values produced by the decoder (the decoder learns element types only
from the signature, so arrays carry no static type here). -/
inductive DecValue
  | byte (b : Nat)
  | boolean (b : Bool)
  | int16 (i : Int)
  | uint16 (n : Nat)
  | int32 (i : Int)
  | uint32 (n : Nat)
  | int64 (i : Int)
  | uint64 (n : Nat)
  | double (bits : Nat)
  | string (s : List Nat)
  | signature (s : List Nat)
  | array (elems : List DecValue)

/-- The unmarshalling state of newmarshal.go: signature and data with their
two cursors. -/
structure decoder where
  signature : List Char
  data : List Nat
  order : Endian
  dataOffset : Nat
  sigOffset : Nat

/-- newmarshal.go `newDecoder`. -/
def newDecoder (signature : List Char) (data : List Nat) (order : Endian) : decoder :=
  { signature := signature, data := data, order := order, dataOffset := 0, sigOffset := 0 }

/-- Smallest `off + k` (`k < alignment`) that is a multiple of `alignment`:
the loop of `decoder.align`. -/
def alignUp (off alignment : Nat) : Nat :=
  off + (alignment - off % alignment) % alignment

/-- newmarshal.go `decoder.align`: advance `dataOffset` to a multiple of
`alignment` (no bounds check here; every subsequent read checks). -/
def decoder.align (d : decoder) (alignment : Nat) : decoder :=
  { d with dataOffset := alignUp d.dataOffset alignment }

/-- newmarshal.go `decoder.readByte`. -/
def decoder.readByte (d : decoder) : Except DecErr (Nat × decoder) :=
  if d.data.length < d.dataOffset + 1 then .error .bufferOverrun
  else .ok (byteAt d.data d.dataOffset, { d with dataOffset := d.dataOffset + 1 })

/-- Shared body of the fixed-width reads: align, bounds-check, read `width`
bytes with the decoder's byte order. -/
def decoder.readFixed (d : decoder) (width : Nat) : Except DecErr (Nat × decoder) :=
  let d := d.align width
  if d.data.length < d.dataOffset + width then .error .bufferOverrun
  else .ok (orderNum d.order d.data d.dataOffset width,
            { d with dataOffset := d.dataOffset + width })

/-- newmarshal.go `decoder.readUint16`. -/
def decoder.readUint16 (d : decoder) : Except DecErr (Nat × decoder) :=
  d.readFixed 2

/-- newmarshal.go `decoder.readInt16`. -/
def decoder.readInt16 (d : decoder) : Except DecErr (Int × decoder) :=
  (d.readFixed 2).map (fun r => (toSigned 16 r.1, r.2))

/-- newmarshal.go `decoder.readUint32`. -/
def decoder.readUint32 (d : decoder) : Except DecErr (Nat × decoder) :=
  d.readFixed 4

/-- newmarshal.go `decoder.readInt32`. -/
def decoder.readInt32 (d : decoder) : Except DecErr (Int × decoder) :=
  (d.readFixed 4).map (fun r => (toSigned 32 r.1, r.2))

/-- newmarshal.go `decoder.readUint64`. -/
def decoder.readUint64 (d : decoder) : Except DecErr (Nat × decoder) :=
  d.readFixed 8

/-- newmarshal.go `decoder.readInt64`. -/
def decoder.readInt64 (d : decoder) : Except DecErr (Int × decoder) :=
  (d.readFixed 8).map (fun r => (toSigned 64 r.1, r.2))

/-- newmarshal.go `decoder.readFloat64`: the raw 64-bit pattern
(`math.Float64frombits` is the identity on bits). -/
def decoder.readFloat64 (d : decoder) : Except DecErr (Nat × decoder) :=
  d.readFixed 8

/-- newmarshal.go `decoder.readString`: 4-byte length, then `length` bytes
and a nul, with the combined bounds check of the source. -/
def decoder.readString (d : decoder) : Except DecErr (List Nat × decoder) := do
  let (length, d) ← d.readUint32
  if d.data.length < d.dataOffset + length + 1 then .error .bufferOverrun
  else .ok ((d.data.drop d.dataOffset).take length,
            { d with dataOffset := d.dataOffset + length + 1 })

/-- newmarshal.go `decoder.readSignature`: 1-byte length, then bytes and nul. -/
def decoder.readSignature (d : decoder) : Except DecErr (List Nat × decoder) := do
  let (length, d) ← d.readByte
  if d.data.length < d.dataOffset + length + 1 then .error .bufferOverrun
  else .ok ((d.data.drop d.dataOffset).take length,
            { d with dataOffset := d.dataOffset + length + 1 })

mutual

/-- newmarshal.go `decoder.decodeValue`. The structure mirrors the source:
the (off-by-one) signature bounds check, the switch on the signature code,
each branch reading and then dispatching on the destination kind, and the
final "Could not decode" error. The element loops of the array case are
expressed with explicit fuel; each successful element decode consumes at
least one data byte, so any fuel beyond `data.length + 1` behaves like the
unbounded loop. -/
def decodeValue (fuel : Nat) (d : decoder) (dest : Dest) :
    Except DecErr (DecValue × decoder) :=
  match fuel with
  | 0 => .error .outOfFuel
  | fuel + 1 =>
    if d.signature.length < d.sigOffset then .error .signatureOverrun
    else
      match d.signature.get? d.sigOffset with
      | none => .error .panicIndex
      | some sigCode =>
        let d := { d with sigOffset := d.sigOffset + 1 }
        match sigCode with
        | 'y' => do
          let (value, d) ← d.readByte
          match dest with
          | .byte | .iface => .ok (.byte value, d)
          | _ => .error (.typeMismatch 'y')
        | 'b' => do
          let (value, d) ← d.readUint32
          match dest with
          | .boolean | .iface => .ok (.boolean (value != 0), d)
          | _ => .error (.typeMismatch 'b')
        | 'n' => do
          let (value, d) ← d.readInt16
          match dest with
          | .int16 | .iface => .ok (.int16 value, d)
          | _ => .error (.typeMismatch 'n')
        | 'q' => do
          let (value, d) ← d.readUint16
          match dest with
          | .uint16 | .iface => .ok (.uint16 value, d)
          | _ => .error (.typeMismatch 'q')
        | 'i' => do
          let (value, d) ← d.readInt32
          match dest with
          | .int32 | .iface => .ok (.int32 value, d)
          | _ => .error (.typeMismatch 'i')
        | 'u' => do
          let (value, d) ← d.readUint32
          match dest with
          | .uint32 | .iface => .ok (.uint32 value, d)
          | _ => .error (.typeMismatch 'u')
        | 'x' => do
          let (value, d) ← d.readInt64
          match dest with
          | .int64 | .iface => .ok (.int64 value, d)
          | _ => .error (.typeMismatch 'x')
        | 't' => do
          let (value, d) ← d.readUint64
          -- Source quirk: the typed destination accepted here is Uint32,
          -- not Uint64 (newmarshal.go case 't').
          match dest with
          | .uint32 | .iface => .ok (.uint64 value, d)
          | _ => .error (.typeMismatch 't')
        | 'd' => do
          let (value, d) ← d.readFloat64
          match dest with
          | .double | .iface => .ok (.double value, d)
          | _ => .error (.typeMismatch 'd')
        | 's' => do
          let (value, d) ← d.readString
          match dest with
          | .string | .iface => .ok (.string value, d)
          | _ => .error (.typeMismatch 's')
        | 'o' => do
          let (value, d) ← d.readString
          match dest with
          | .string | .iface => .ok (.string value, d)
          | _ => .error (.typeMismatch 'o')
        | 'g' => do
          let (value, d) ← d.readSignature
          match dest with
          | .string | .iface => .ok (.signature value, d)
          | _ => .error (.typeMismatch 'g')
        | 'a' => do
          let (length, d) ← d.readUint32
          let elemSigOffset := d.sigOffset
          let arrayEnd := d.dataOffset + length
          if d.data.length < arrayEnd then .error .bufferOverrun
          else
            match dest with
            | .slice ed => decodeArrayElems fuel d elemSigOffset arrayEnd ed []
            | .iface => decodeArrayElems fuel d elemSigOffset arrayEnd .iface []
            | _ => .error (.typeMismatch 'a')
        | c => .error (.typeMismatch c)
termination_by structural fuel

/-- The `dataOffset < arrayEnd` element loop of the array case: reset the
signature cursor to the element signature and decode the next element. -/
def decodeArrayElems (fuel : Nat) (d : decoder)
    (elemSigOffset arrayEnd : Nat) (ed : Dest) (acc : List DecValue) :
    Except DecErr (DecValue × decoder) :=
  match fuel with
  | 0 => .error .outOfFuel
  | fuel + 1 =>
    if d.dataOffset < arrayEnd then do
      let d := { d with sigOffset := elemSigOffset }
      let (elem, d) ← decodeValue fuel d ed
      decodeArrayElems fuel d elemSigOffset arrayEnd ed (acc ++ [elem])
    else .ok (.array acc, d)
termination_by structural fuel

end

/-- newmarshal.go `decoder.Decode`: decode one value per destination.
The fuel bound is generous: every recursion either consumes a signature
character or at least one data byte. -/
def decoder.Decode (d : decoder) (dests : List Dest) :
    Except DecErr (List DecValue × decoder) :=
  match dests with
  | [] => .ok ([], d)
  | dst :: rest => do
    let (v, d2) ← decodeValue (d.data.length + d.signature.length + 1) d dst
    let (vs, d3) ← d2.Decode rest
    .ok (v :: vs, d3)

/-! ## Messages, match rules and the signal watch set -/

/-- message.go `MessageType`. -/
inductive MessageType
  | TypeInvalid
  | TypeMethodCall
  | TypeMethodReturn
  | TypeError
  | TypeSignal
deriving DecidableEq

/-- message.go `ObjectPath` is a string type. -/
abbrev ObjectPath := String

/-- The fields of message.go `Message` that the claims under proof touch:
routing fields read by the match machinery and the private `serial`
(0 until `setSerial` stamps it, as set up by `newMessage`). -/
structure Message where
  «Type» : MessageType
  Path : ObjectPath
  Iface : String
  Member : String
  Sender : String
  serial : Nat
deriving DecidableEq

/-- unnamed/part_002 `MatchRule`: matches all messages with equal type,
sender, path, interface or member; missing/invalid fields are wildcards.
`senderNameOwner` is the runtime-only owner of a well-known `Sender`. -/
structure MatchRule where
  «Type» : MessageType
  Sender : String
  Path : ObjectPath
  Interface : String
  Member : String
  senderNameOwner : String
deriving DecidableEq

/-- part_002 `MatchRule._Match`: each set field must equal the message's. -/
def MatchRule._Match (p : MatchRule) (msg : Message) : Bool :=
  if p.«Type» != .TypeInvalid && p.«Type» != msg.«Type» then false
  else if p.Sender != "" && p.Sender != msg.Sender then false
  else if p.Path != "" && p.Path != msg.Path then false
  else if p.Interface != "" && p.Interface != msg.Iface then false
  else if p.Member != "" && p.Member != msg.Member then false
  else true

/-- Modelled from the spec: `MatchRule.Match`, the predicate invoked by
`signalWatchSet.FindMatches` (part_009), is not among the sources; only its
`_Match` variants are. Spec section 4.7: "Match(msg) checks non-empty fields
against the message; the sender field is matched against msg.sender either
directly (for unique names `:x.y`) or after substitution via
`senderNameOwner` (for well-known names)". -/
def MatchRule.Match (p : MatchRule) (msg : Message) : Bool :=
  if p.«Type» != .TypeInvalid && p.«Type» != msg.«Type» then false
  else if p.Sender != "" &&
      (if p.Sender.startsWith ":" then p.Sender != msg.Sender
       else p.senderNameOwner != msg.Sender) then false
  else if p.Path != "" && p.Path != msg.Path then false
  else if p.Interface != "" && p.Interface != msg.Iface then false
  else if p.Member != "" && p.Member != msg.Member then false
  else true

/-- A signal watch as stored in the index: an identity plus its rule
(part_009 `SignalWatch`, reduced to what `Add`/`FindMatches` consult). -/
structure SWatch where
  id : Nat
  rule : MatchRule
deriving DecidableEq

/-- Go map lookup over an association list. -/
def alGet {κ α : Type} [DecidableEq κ] (k : κ) : List (κ × α) → Option α
  | [] => none
  | (k2, v) :: rest => if k2 = k then some v else alGet k rest

/-- Go map update/insert over an association list. -/
def alSet {κ α : Type} [DecidableEq κ] (k : κ) (v : α) :
    List (κ × α) → List (κ × α)
  | [] => [(k, v)]
  | (k2, v2) :: rest =>
    if k2 = k then (k, v) :: rest else (k2, v2) :: alSet k v rest

/-- part_009 `signalWatchSet`: watches keyed by object path, interface and
member (Go's nested hash maps become nested association lists; `FindMatches`
only ever looks up specific keys, so map iteration order is immaterial). -/
abbrev signalWatchSet :=
  List (ObjectPath × List (String × List (String × List SWatch)))

/-- part_009 `signalWatchSet.Add`: append the watch to the bucket at
`(rule.Path, rule.Interface, rule.Member)`, creating levels as needed. -/
def signalWatchSet.Add (self : signalWatchSet) (watch : SWatch) :
    signalWatchSet :=
  let byInterface := (alGet watch.rule.Path self).getD []
  let byMember := (alGet watch.rule.Interface byInterface).getD []
  let watches := (alGet watch.rule.Member byMember).getD []
  alSet watch.rule.Path
    (alSet watch.rule.Interface
      (alSet watch.rule.Member (watches ++ [watch]) byMember) byInterface) self

/-- The `pathKeys` of part_009 `FindMatches`: wildcard plus the concrete
path when present. -/
def pathKeys (msg : Message) : List ObjectPath :=
  [""] ++ (if msg.Path != "" then [msg.Path] else [])

/-- The `ifaceKeys` of part_009 `FindMatches`. -/
def ifaceKeys (msg : Message) : List String :=
  [""] ++ (if msg.Iface != "" then [msg.Iface] else [])

/-- The `memberKeys` of part_009 `FindMatches`. -/
def memberKeys (msg : Message) : List String :=
  [""] ++ (if msg.Member != "" then [msg.Member] else [])

/-- part_009 `signalWatchSet.FindMatches`: walk the wildcard and concrete
key on each axis, then filter the bucket through `rule.Match(msg)`. -/
def signalWatchSet.FindMatches (self : signalWatchSet) (msg : Message) :
    List SWatch :=
  (pathKeys msg).flatMap fun path =>
    match alGet path self with
    | none => []
    | some byInterface =>
      (ifaceKeys msg).flatMap fun iface =>
        match alGet iface byInterface with
        | none => []
        | some byMember =>
          (memberKeys msg).flatMap fun member =>
            match alGet member byMember with
            | none => []
            | some watches => watches.filter fun watch => watch.rule.Match msg

/-- The bucket a triple of keys addresses (empty when any level is absent). -/
def signalWatchSet.bucket (self : signalWatchSet)
    (path : ObjectPath) (iface member : String) : List SWatch :=
  (alGet member ((alGet iface ((alGet path self).getD [])).getD [])).getD []

/-! ## Serial allocation, Send and setSerial -/

/-- newmarshal_test.go `Connection.nextSerial` is
`atomic.AddUint32(&p.lastSerial, 1)` (part_004 equivalently increments under
a mutex): the successor of the 32-bit counter, wrapping at `2^32`. -/
def nextSerialVal (lastSerial : Nat) : Nat := (lastSerial + 1) % 2 ^ 32

/-- The Connection state relevant to serial assignment and transmission:
the `lastSerial` counter, the frames written to the socket (in order), and
the method-call serials registered in `methodCallReplies`. -/
structure Connection where
  lastSerial : Nat
  sent : List Message
  pendingReplies : List Nat

/-- `Connection.nextSerial`: bump the counter and return the new value. -/
def Connection.nextSerial (c : Connection) : Connection × Nat :=
  let serial := nextSerialVal c.lastSerial
  ({ c with lastSerial := serial }, serial)

/-- The serial returned by the k-th `nextSerial` call of a fresh connection
(`lastSerial` starts at the zero value). -/
def serialAfter : Nat → Nat
  | 0 => 0
  | k + 1 => nextSerialVal (serialAfter k)

/-- message.go `Message.setSerial`: a message may be given a serial at most
once; the Go `panic("Message already has a serial number")` is modelled as
the error case. -/
def Message.setSerial (m : Message) (serial : Nat) : Except String Message :=
  if m.serial != 0 then .error "Message already has a serial number"
  else .ok { m with serial := serial }

/-- newmarshal_test.go `Connection.Send`: stamp a fresh serial, marshal and
write the frame. A `setSerial` panic aborts before anything is transmitted;
marshalling itself is not modelled (its failures are unrelated to serials). -/
def Connection.Send (c : Connection) (m : Message) :
    Except String (Connection × Message) :=
  let (c, serial) := c.nextSerial
  match m.setSerial serial with
  | .error e => .error e
  | .ok m2 => .ok ({ c with sent := c.sent ++ [m2] }, m2)

/-- newmarshal_test.go `Connection.SendWithReply`: method calls only; stamp
a serial, register the reply channel under it, write the frame. -/
def Connection.SendWithReply (c : Connection) (m : Message) :
    Except String (Connection × Message) :=
  if m.«Type» != .TypeMethodCall then .error "Only method calls have replies"
  else
    let (c, serial) := c.nextSerial
    match m.setSerial serial with
    | .error e => .error e
    | .ok m2 =>
      .ok ({ c with pendingReplies := c.pendingReplies ++ [serial],
                    sent := c.sent ++ [m2] }, m2)

/-! ## SASL authentication (auth.go) -/

/-- auth.go `Authenticator` interface. `processData` is handed the hex blob
after `DATA ` and returns the full response line body or an error. -/
structure Authenticator where
  mechanism : List Char
  initialResponse : List Char
  processData : List Char → Except (List Char) (List Char)

/-- Terminal outcomes of `_Authenticate`. `ok` is the `OK`/`AGREE_UNIX_FD`
return; `rejected` the "Rejected: ..." error; `failedData` the pending
`ProcessData` error returned when `REJECTED` arrives after a failed
challenge; `serverError` the "Error: ..." return; `eof` marks exhaustion of
the (finite) script of server lines, where the Go loop would keep reading. -/
inductive AuthResult
  | ok
  | rejected (mechs : List Char)
  | failedData (e : List Char)
  | serverError (msg : List Char)
  | eof
deriving DecidableEq

/-- Go `mesg[min(len(cmd), len(mesg)):]`, dropping a command prefix. -/
def dropCmd (cmd mesg : List Char) : List Char :=
  mesg.drop (min cmd.length mesg.length)

/-- The read loop of auth.go `Connection._Authenticate`, processing one
server line per iteration. Inputs: the mechanism, the pending error from the
last `ProcessData` (the Go `err` variable), and the remaining server lines.
Outputs: the lines written to the socket (in order), the result, and the
server lines not yet consumed. On a failed challenge the source writes
`CANCEL\r\n` and then still writes `resp+"\r\n"` with `resp == nil`, i.e. a
bare CRLF, before looping. -/
def authLoop (mech : Authenticator) (err : Option (List Char)) :
    List (List Char) → List (List Char) × AuthResult × List (List Char)
  | [] => ([], .eof, [])
  | mesg :: rest =>
    if ("DATA".toList).isPrefixOf mesg then
      match mech.processData (dropCmd ("DATA ".toList) mesg) with
      | .error e =>
        let (w, r, rem) := authLoop mech (some e) rest
        (("CANCEL\r\n".toList) :: ("\r\n".toList) :: w, r, rem)
      | .ok resp =>
        let (w, r, rem) := authLoop mech none rest
        ((resp ++ "\r\n".toList) :: w, r, rem)
    else if ("OK".toList).isPrefixOf mesg
        || ("AGREE_UNIX_FD".toList).isPrefixOf mesg then
      (["BEGIN\r\n".toList], .ok, rest)
    else if ("REJECTED".toList).isPrefixOf mesg then
      match err with
      | some e => ([], .failedData e, rest)
      | none => ([], .rejected (dropCmd ("REJECTED ".toList) mesg), rest)
    else if ("ERROR".toList).isPrefixOf mesg then
      ([], .serverError (dropCmd ("ERROR ".toList) mesg), rest)
    else
      let (w, r, rem) := authLoop mech err rest
      (("ERROR\r\n".toList) :: w, r, rem)

/-- auth.go `Connection._Authenticate`: write `AUTH <MECH> <INITIAL>` and
run the read loop with no pending error. -/
def _Authenticate (mech : Authenticator) (lines : List (List Char)) :
    List (List Char) × AuthResult × List (List Char) :=
  let (w, r, rem) := authLoop mech none lines
  ((("AUTH ".toList ++ mech.mechanism ++ [' '] ++ mech.initialResponse
      ++ "\r\n".toList)) :: w, r, rem)

/-- Modelled from the spec: the multi-mechanism driver (`authState` with
`AddAuthenticator`, called from dbus.go `Connection._Auth`) is not among the
sources - only `_Authenticate` and its callers are. Spec section 4.6:
on `REJECTED`, "try next mechanism if the caller supplied more; otherwise
fail with AuthRejected". Each attempt resumes on the lines the previous
attempt left unconsumed. -/
def Authenticate (mechs : List Authenticator) (lines : List (List Char)) :
    List (List Char) × AuthResult × List (List Char) :=
  match mechs with
  | [] => ([], .rejected [], lines)
  | mech :: rest =>
    let (w, r, rem) := _Authenticate mech lines
    match r, rest with
    | .rejected s, [] => (w, .rejected s, rem)
    | .rejected _, _ :: _ =>
      let (w2, r2, rem2) := Authenticate rest rem
      (w ++ w2, r2, rem2)
    | _, _ => (w, r, rem)

/-! ## Name-owner tracker (dbus.go) -/

/-- dbus.go `nameInfo`: the current owner (sentinel `"\x00"` until the first
resolution) and the attached watch callbacks (identified by number; an
invocation is recorded as a pair of callback id and delivered owner). -/
structure nameInfo where
  currentOwner : String
  watches : List Nat

/-- The record `newNameInfo` constructs before resolving the owner
(dbus.go lines 399-403). -/
def nameInfoInit : nameInfo :=
  { currentOwner := "\x00", watches := [] }

/-- dbus.go `nameInfo.handleOwnerChange`: store the new owner and invoke
every attached callback with it. Returns the new state and the invocations. -/
def nameInfo.handleOwnerChange (info : nameInfo) (newOwner : String) :
    nameInfo × List (Nat × String) :=
  ({ info with currentOwner := newOwner },
   info.watches.map fun cb => (cb, newOwner))

/-- dbus.go `nameInfo.checkCurrentOwner`: `ownerResult` is what
`GetNameOwner` returned (the empty string when it failed, matching the Go
zero value; a `NameHasNoOwner` error likewise leaves it empty). Under the
lock, if the owner is still unresolved, simulate an ownership change. -/
def nameInfo.checkCurrentOwner (info : nameInfo) (ownerResult : String) :
    nameInfo × List (Nat × String) :=
  if info.currentOwner == "\x00" then info.handleOwnerChange ownerResult
  else (info, [])

/-- dbus.go `newNameInfo`: build the initial record, register the
`NameOwnerChanged` signal watch (not modelled - it only feeds later
`handleOwnerChange` calls), then resolve the current owner synchronously. -/
def newNameInfo (ownerResult : String) : nameInfo × List (Nat × String) :=
  nameInfoInit.checkCurrentOwner ownerResult

/-- The tail of dbus.go `ensureNameWatch` under the `nameInfo` lock: attach
the callback and invoke it once, synchronously, iff the current owner is
already known. -/
def nameInfo.attachWatch (info : nameInfo) (cb : Nat) :
    nameInfo × List (Nat × String) :=
  ({ info with watches := info.watches ++ [cb] },
   if info.currentOwner != "\x00" then [(cb, info.currentOwner)] else [])

/-- dbus.go `Connection.ensureNameWatch` over the `nameInfo` map: create and
store the `nameInfo` on first watch (resolving the owner via `newNameInfo`),
then attach the callback. Returns the new map and the callback invocations
performed synchronously during the call. -/
def ensureNameWatch (st : List (String × nameInfo)) (busName : String)
    (cb : Nat) (ownerResult : String) :
    List (String × nameInfo) × List (Nat × String) :=
  match alGet busName st with
  | none =>
    let (info, ev1) := newNameInfo ownerResult
    let (info, ev2) := info.attachWatch cb
    (alSet busName info st, ev1 ++ ev2)
  | some info =>
    let (info, ev) := info.attachWatch cb
    (alSet busName info st, ev)

/-! ## Bus-name acquisition (dbus.go / names.go) -/

/-- Events a `BusName` delivers on its channel `name.C`; `ok` is the nil
error Go sends for a (re)acquired name. -/
inductive NameEvent
  | ok
  | lost
  | inQueue
  | nameExists
  | alreadyOwned
  | unknown
deriving DecidableEq

/-- What interpreting one daemon `RequestName` reply does: the
`needsRelease` flag, the events sent on `name.C`, and whether the name was
released on the spot (`name.release(false)`). -/
structure RequestOutcome where
  needsRelease : Bool
  events : List NameEvent
  released : Bool
deriving DecidableEq

/-- The reply `switch` of dbus.go / names.go `BusName.request` (lines
640-661 / 486-507): interpret the numeric result of the daemon's
`RequestName` call. -/
def BusName.request (result : Nat) : RequestOutcome :=
  match result with
  | 1 => { needsRelease := true, events := [], released := false }
  | 2 => { needsRelease := true, events := [.inQueue], released := false }
  | 3 => { needsRelease := false, events := [.nameExists], released := true }
  | 4 => { needsRelease := false, events := [.alreadyOwned], released := true }
  | _ => { needsRelease := false, events := [.unknown], released := true }

/-! ## Match-rule serialization (matchrule.go) -/

/-- matchrule.go `MatchRule`: the string-typed variant, fields in
declaration order. -/
structure MatchRuleG where
  «Type» : String
  Interface : String
  Member : String
  Path : String

/-- matchrule.go `MatchRule._ToString`: walk the fields in declaration
order, keep the non-empty strings as `lowercase(name)='value'` and join
with commas (the reflection loop becomes the explicit field list). -/
def MatchRuleG._ToString (p : MatchRuleG) : String :=
  let fields := [("type", p.«Type»), ("interface", p.Interface),
                 ("member", p.Member), ("path", p.Path)]
  let strslice := (fields.filter fun kv => kv.2 != "").map
    fun kv => kv.1 ++ "=\x27" ++ kv.2 ++ "\x27"
  String.intercalate "," strslice

/-! ## General lemmas -/

theorem alGet_alSet {κ α : Type} [DecidableEq κ] (k k2 : κ) (v : α)
    (al : List (κ × α)) :
    alGet k2 (alSet k v al) = if k = k2 then some v else alGet k2 al := by
  induction al with
  | nil => by_cases h : k = k2 <;> simp [alGet, alSet, h]
  | cons hd tl ih =>
    obtain ⟨k3, v3⟩ := hd
    by_cases h3 : k3 = k
    · subst h3
      by_cases h : k3 = k2 <;> simp [alGet, alSet, h, ih]
    · by_cases h : k3 = k2
      · subst h
        have : ¬ k = k3 := fun e => h3 e.symm
        simp [alGet, alSet, h3, this, ih]
      · simp [alGet, alSet, h3, h, ih]

/-! ## Signature preservation (encoder) -/

/-- Padding does not change the accumulated signature. -/
theorem encoder_align_signature (e : encoder) (a : Nat) :
    (e.align a).signature = e.signature := rfl

/-- One `appendValue` call extends the signature accumulator by exactly the
element signature of the value's type: the struct and variant cases restore
the saved accumulator, and array/dict elements go to a child encoder. -/
theorem appendValue_signature (e : encoder) (v : DValue) :
    (appendValue e v).signature = e.signature ++ getSignature (typeOf v) := by
  cases v <;>
    simp [appendValue, encoder.align, encoder.appendSigValue, typeOf]

/-- `appendAll` concatenates the element signatures of all values. -/
theorem appendAll_signature (args : List DValue) (e : encoder) :
    (appendAll e args).signature =
      e.signature ++ (args.map (fun v => getSignature (typeOf v))).flatten := by
  induction args generalizing e with
  | nil => simp [appendAll]
  | cons v vs ih =>
    simp only [appendAll, List.map_cons, List.flatten]
    rw [ih, appendValue_signature, List.append_assoc]

/-- Claim C2: the signature accumulated by the encoder equals the
concatenation of the element signature of each appended value's native type;
a variant value contributes only the single typecode `v` to the parent
signature (the accumulator is saved and restored around variant and struct
bodies, and array/dict element signatures go to the child encoder). -/
theorem c2_signature_preservation (e : encoder) (args : List DValue) :
    (e.Append args).signature =
      e.signature ++ (args.map (fun v => getSignature (typeOf v))).flatten
    ∧ ∀ inner : DValue, getSignature (typeOf (DValue.variant inner)) = ['v'] :=
  ⟨appendAll_signature args e, fun _ => rfl⟩

/-- Claim C1 (evaluation at the failing input): encoding the byte 1 followed
by the int32 array [42] yields signature "yai", but the child-encoder
baseline for the array is computed before the parent's 4-byte alignment, so
the array's padding disagrees with the decoder's and decoding the emitted
bytes with the emitted signature fails with a buffer overrun instead of
returning the original values. -/
theorem c1_roundtrip_failure_eval :
    ((newEncoder [] .little).Append
        [DValue.byte 1, DValue.array DType.int32 [DValue.int32 42]]).signature
      = ['y', 'a', 'i']
    ∧ ((newEncoder [] .little).Append
        [DValue.byte 1, DValue.array DType.int32 [DValue.int32 42]]).data
      = [1, 0, 0, 0, 7, 0, 0, 0, 0, 0, 0, 42, 0, 0, 0]
    ∧ (newDecoder ['y', 'a', 'i']
        [1, 0, 0, 0, 7, 0, 0, 0, 0, 0, 0, 42, 0, 0, 0] .little).Decode
        [Dest.byte, Dest.slice Dest.int32]
      = .error DecErr.bufferOverrun := by
  refine ⟨?_, ?_, ?_⟩
  · norm_num [encoder.Append, appendAll, appendValue, encoder.align, putNum,
      putLE, intBits, getSignature, typeOf, newEncoder, encoder.appendSigValue,
      List.replicate, Int.toNat]
  · norm_num [encoder.Append, appendAll, appendValue, encoder.align, putNum,
      putLE, intBits, getSignature, typeOf, newEncoder, encoder.appendSigValue,
      List.replicate, Int.toNat]
  · norm_num [decoder.Decode, decodeValue, decodeArrayElems, newDecoder,
      decoder.readByte, decoder.readFixed, decoder.readUint32, decoder.readInt32,
      decoder.align, alignUp, byteAt, orderNum, leNum, toSigned,
      bind, Except.bind, Except.map]

/-- Claim C10 (evaluation at the failing input): with an empty signature the
bounds check `len(signature) < sigOffset` passes at `sigOffset = 0`, and the
subsequent `signature[0]` access panics (modelled as `panicIndex`), which is
none of the buffer-too-small / signature-too-small / type-mismatch errors,
so `Decode` is not total in the sense of the claim. -/
theorem c10_decoder_sigoffset_panic_eval :
    (newDecoder [] [] .little).Decode [Dest.iface] = .error DecErr.panicIndex
    ∧ DecErr.panicIndex ≠ DecErr.bufferOverrun
    ∧ DecErr.panicIndex ≠ DecErr.signatureOverrun
    ∧ ∀ c, DecErr.panicIndex ≠ DecErr.typeMismatch c := by
  refine ⟨?_, by decide, by decide, fun c => by simp⟩
  norm_num [decoder.Decode, decodeValue, newDecoder, bind, Except.bind]

/-! ## Serial uniqueness (C4) -/

/-- Closed form of the serial stream: the k-th call returns `k mod 2^32`. -/
theorem serialAfter_eq (k : Nat) : serialAfter k = k % 2 ^ 32 := by
  induction k with
  | zero => rfl
  | succ k ih => rw [serialAfter, ih, nextSerialVal, Nat.mod_add_mod]

/-- Claim C4 (counterexample): the serial counter is a wrapping 32-bit
counter, so over an unbounded connection lifetime the 2^32-th `nextSerial`
call returns the reserved value 0, and the following call repeats the very
first serial - uniqueness, strict increase and non-zeroness all fail there
as universally quantified. -/
theorem c4_wraparound_counterexample :
    serialAfter (2 ^ 32) = 0
    ∧ serialAfter (2 ^ 32 + 1) = serialAfter 1
    ∧ serialAfter 1 = 1 := by
  refine ⟨?_, ?_, rfl⟩ <;> simp [serialAfter_eq]

/-- Claim C4 (amended): within the first `2^32 - 1` calls of a connection's
lifetime, the serials produced by successive `nextSerial` calls are strictly
increasing (hence pairwise distinct across `Send`/`SendWithReply`) and the
reserved value 0 is never assigned. -/
theorem c4_serials_strictly_increasing (i j : Nat)
    (hi : 0 < i) (hij : i < j) (hj : j < 2 ^ 32) :
    serialAfter i ≠ 0 ∧ serialAfter j ≠ 0 ∧ serialAfter i < serialAfter j := by
  rw [serialAfter_eq, serialAfter_eq, Nat.mod_eq_of_lt (lt_trans hij hj),
    Nat.mod_eq_of_lt hj]
  omega

/-- Witness for the amended C4 theorem at `i = 1`, `j = 2`. -/
theorem c4_serials_strictly_increasing_witness :
    serialAfter 1 ≠ 0 ∧ serialAfter 2 ≠ 0 ∧ serialAfter 1 < serialAfter 2 :=
  c4_serials_strictly_increasing 1 2 (by norm_num) (by norm_num) (by norm_num)

/-! ## setSerial / Send (C9) -/

/-- Claim C9: a Message can be given a serial at most once - `setSerial`
panics whenever the serial is already non-zero, so a message that has been
sent (and is thus stamped with a non-zero serial) makes a second `Send` or
`SendWithReply` panic before anything is transmitted. -/
theorem c9_setserial_once :
    (∀ (m : Message) (s : Nat), m.serial ≠ 0 →
      m.setSerial s = .error "Message already has a serial number")
    ∧ (∀ (c : Connection) (m : Message) (c2 : Connection) (m2 : Message),
        c.Send m = .ok (c2, m2) → m2.serial ≠ 0 →
        ∀ d : Connection,
          d.Send m2 = .error "Message already has a serial number"
          ∧ (m2.«Type» = .TypeMethodCall →
              d.SendWithReply m2 = .error "Message already has a serial number")) := by
  constructor
  · intro m s h
    simp [Message.setSerial, h]
  · intro c m c2 m2 _ h2 d
    constructor
    · simp [Connection.Send, Connection.nextSerial, Message.setSerial, h2]
    · intro hty
      simp [Connection.SendWithReply, Connection.nextSerial, Message.setSerial,
        h2, hty]

/-- Witness for C9: a message stamped with serial 5 cannot be restamped, and
re-sending an already-sent message (serial 1) panics. -/
theorem c9_setserial_once_witness :
    ({ «Type» := .TypeSignal, Path := "/", Iface := "a", Member := "b",
       Sender := "c", serial := 5 } : Message).setSerial 7
      = .error "Message already has a serial number"
    ∧ ((⟨9, [], []⟩ : Connection).Send
        { «Type» := .TypeMethodCall, Path := "/", Iface := "a", Member := "b",
          Sender := "c", serial := 1 }
      = .error "Message already has a serial number") :=
  ⟨c9_setserial_once.1 _ 7 (by decide),
   (c9_setserial_once.2 ⟨0, [], []⟩
      { «Type» := .TypeMethodCall, Path := "/", Iface := "a", Member := "b",
        Sender := "c", serial := 0 }
      ⟨1, [{ «Type» := .TypeMethodCall, Path := "/", Iface := "a", Member := "b",
             Sender := "c", serial := 1 }], []⟩
      { «Type» := .TypeMethodCall, Path := "/", Iface := "a", Member := "b",
        Sender := "c", serial := 1 }
      rfl (by decide) ⟨9, [], []⟩).1⟩

/-! ## RequestName reply interpretation (C8) -/

/-- Claim C8 (counterexample): interpreting the daemon reply 1
(PRIMARY_OWNER) sends nothing on the BusName's event channel, not `Ok`. -/
theorem c8_primary_owner_counterexample :
    (BusName.request 1).events = [] ∧ ([] : List NameEvent) ≠ [NameEvent.ok] :=
  ⟨rfl, by decide⟩

/-- Claim C8 (amended): reply 1 (PRIMARY_OWNER) only marks the name as
needing release and delivers nothing on the channel (the `Ok` event reaches
the caller via the separate NameAcquired signal watch); reply 2 (IN_QUEUE)
delivers `InQueue` on the channel and likewise marks the name as needing
release; neither releases the name. -/
theorem c8_request_reply_interpretation :
    BusName.request 1 = { needsRelease := true, events := [], released := false }
    ∧ BusName.request 2
      = { needsRelease := true, events := [.inQueue], released := false } :=
  ⟨rfl, rfl⟩

/-! ## Match-rule serialization (C5) -/

/-- Claim C5: stringifying the match rule {type=signal,
interface=org.freedesktop.DBus, member=Foo, path=/bar/foo} produces exactly
the claimed string: quoted k='v' pairs in field order, joined by commas,
with unset fields omitted. -/
theorem c5_matchrule_tostring :
    MatchRuleG._ToString
      { «Type» := "signal", Interface := "org.freedesktop.DBus",
        Member := "Foo", Path := "/bar/foo" }
      = "type=\x27signal\x27,interface=\x27org.freedesktop.DBus\x27,member=\x27Foo\x27,path=\x27/bar/foo\x27" := by
  decide

/-! ## Name-owner tracker (C7) -/

/-- Claim C7 (counterexample): the first `WatchName` of a name does not
store a `nameInfo` whose `currentOwner` is the sentinel: `newNameInfo`
resolves the owner synchronously before `ensureNameWatch` stores the record,
so the stored owner is already the resolved one (here `:1.5`). -/
theorem c7_sentinel_counterexample :
    (alGet "com.example.Service"
        (ensureNameWatch [] "com.example.Service" 0 ":1.5").1).map
      nameInfo.currentOwner = some ":1.5"
    ∧ (":1.5" : String) ≠ "\x00" :=
  ⟨rfl, by decide⟩

/-- Claim C7 (amended): the `nameInfo` is created with the sentinel owner
`"\x00"`, but `newNameInfo` resolves the owner synchronously before the
record is stored, so after the first `WatchName` the stored `currentOwner`
is the `GetNameOwner` result; and every watcher attached to an existing
`nameInfo` under its lock is invoked exactly once, synchronously, with the
current owner iff `currentOwner` differs from the sentinel at attach time. -/
theorem c7_namewatch_attach :
    nameInfoInit.currentOwner = "\x00"
    ∧ (∀ ownerResult : String,
        (newNameInfo ownerResult).1.currentOwner = ownerResult)
    ∧ (∀ (st : List (String × nameInfo)) (busName : String) (cb : Nat)
         (ownerResult : String) (info : nameInfo),
        alGet busName st = some info →
        (ensureNameWatch st busName cb ownerResult).2
            = (if info.currentOwner == "\x00" then []
               else [(cb, info.currentOwner)])
          ∧ alGet busName (ensureNameWatch st busName cb ownerResult).1
            = some { currentOwner := info.currentOwner,
                     watches := info.watches ++ [cb] }) := by
  refine ⟨rfl, fun ownerResult => ?_, ?_⟩
  · simp [newNameInfo, nameInfo.checkCurrentOwner, nameInfo.handleOwnerChange,
      nameInfoInit]
  · intro st busName cb ownerResult info h
    constructor
    · simp only [ensureNameWatch, h, nameInfo.attachWatch, bne]
      by_cases hc : info.currentOwner = "\x00" <;> simp [hc]
    · simp [ensureNameWatch, h, nameInfo.attachWatch, alGet_alSet]

/-- Witness for the amended C7 theorem: attaching callback 7 to a name whose
info already holds owner `:1.9` invokes it exactly once with that owner. -/
theorem c7_namewatch_attach_witness :
    (ensureNameWatch [("n", ⟨":1.9", [3]⟩)] "n" 7 "").2 = [(7, ":1.9")]
    ∧ alGet "n" (ensureNameWatch [("n", ⟨":1.9", [3]⟩)] "n" 7 "").1
      = some ⟨":1.9", [3, 7]⟩ := by
  have h := c7_namewatch_attach.2.2 [("n", ⟨":1.9", [3]⟩)] "n" 7 ""
    ⟨":1.9", [3]⟩ rfl
  refine ⟨h.1.trans (by decide), h.2.trans ?_⟩
  norm_num

/-! ## SASL REJECTED handling (C6) -/

/-- Processing a line that begins with `REJECTED` terminates the read loop
at once: nothing is written (in particular no `BEGIN`), the result is the
rejection error (or the pending challenge error), and the remaining lines
are left unconsumed. -/
theorem authLoop_rejected (mech : Authenticator) (err : Option (List Char))
    (l : List Char) (ls : List (List Char))
    (hl : ("REJECTED".toList).isPrefixOf l = true) :
    authLoop mech err (l :: ls)
      = ([], (match err with
              | some e => AuthResult.failedData e
              | none => AuthResult.rejected (dropCmd ("REJECTED ".toList) l)),
         ls) := by
  rcases l with _ | ⟨c, t⟩
  · simp [List.isPrefixOf] at hl
  · simp only [List.isPrefixOf, String.toList] at hl
    rw [Bool.and_eq_true, beq_iff_eq] at hl
    obtain ⟨hc, hrest⟩ := hl
    subst hc
    cases err <;> simp [authLoop, List.isPrefixOf, hrest]

/-- A handshake consisting of successfully answered `DATA` challenges
followed by a `REJECTED` line ends rejected, with the lines after the
rejection unconsumed. -/
theorem authLoop_data_then_rejected (mech : Authenticator)
    (ds : List (List Char)) (l : List Char) (ls : List (List Char))
    (hds : ∀ d ∈ ds, ("DATA".toList).isPrefixOf d = true
            ∧ ∃ resp, mech.processData (dropCmd ("DATA ".toList) d) = .ok resp)
    (hl : ("REJECTED".toList).isPrefixOf l = true) :
    (authLoop mech none (ds ++ l :: ls)).2
      = (.rejected (dropCmd ("REJECTED ".toList) l), ls) := by
  induction ds with
  | nil => rw [List.nil_append, authLoop_rejected mech none l ls hl]
  | cons d ds ih =>
    obtain ⟨hd, resp, hresp⟩ := hds d (by simp)
    have ih2 := ih fun x hx => hds x (List.mem_cons_of_mem _ hx)
    simp only [List.cons_append, authLoop, hd, hresp, if_true]
    simpa using ih2

/-- Claim C6: when the server answers `REJECTED`, the authenticator tries
the next mechanism if the caller supplied more, and otherwise the handshake
terminates with the authentication-rejected error; in either case the
rejected attempt writes nothing further (so no `BEGIN`) and consumes no
further lines. The per-mechanism behaviour is auth.go `_Authenticate`; the
multi-mechanism driver is modelled from the spec (see `Authenticate`). -/
theorem c6_rejected_handling (m m2 : Authenticator) (rest : List Authenticator)
    (ds : List (List Char)) (l : List Char) (ls : List (List Char))
    (hds : ∀ d ∈ ds, ("DATA".toList).isPrefixOf d = true
            ∧ ∃ resp, m.processData (dropCmd ("DATA ".toList) d) = .ok resp)
    (hl : ("REJECTED".toList).isPrefixOf l = true) :
    (∀ err, authLoop m err (l :: ls)
        = ([], (match err with
                | some e => AuthResult.failedData e
                | none => AuthResult.rejected (dropCmd ("REJECTED ".toList) l)),
           ls))
    ∧ (_Authenticate m (ds ++ l :: ls)).2
        = (.rejected (dropCmd ("REJECTED ".toList) l), ls)
    ∧ (Authenticate [m] (ds ++ l :: ls)).2
        = (.rejected (dropCmd ("REJECTED ".toList) l), ls)
    ∧ Authenticate (m :: m2 :: rest) (ds ++ l :: ls)
        = ((_Authenticate m (ds ++ l :: ls)).1
            ++ (Authenticate (m2 :: rest) ls).1,
           (Authenticate (m2 :: rest) ls).2) := by
  have h2 : (_Authenticate m (ds ++ l :: ls)).2
      = (.rejected (dropCmd ("REJECTED ".toList) l), ls) := by
    rcases hX : authLoop m none (ds ++ l :: ls) with ⟨w, rr⟩
    have := authLoop_data_then_rejected m ds l ls hds hl
    rw [hX] at this
    simp only [_Authenticate, hX]
    simpa using this
  refine ⟨fun err => authLoop_rejected m err l ls hl, h2, ?_, ?_⟩
  · rcases hA : _Authenticate m (ds ++ l :: ls) with ⟨w, rr⟩
    rw [hA] at h2
    simp only at h2
    simp [Authenticate, hA, h2]
  · rcases hA : _Authenticate m (ds ++ l :: ls) with ⟨w, r, rem⟩
    rw [hA] at h2
    simp only [Prod.mk.injEq] at h2
    obtain ⟨hr, hrem⟩ := h2
    subst hr
    subst hrem
    conv_lhs => rw [Authenticate]
    rw [hA]

/-- Witness for C6: a concrete EXTERNAL-style mechanism whose single
challenge succeeds and is then rejected with no fallback mechanism left. -/
theorem c6_rejected_handling_witness :
    (Authenticate
        [⟨"EXTERNAL".toList, "31303030".toList,
          fun _ => .ok ("DATA 3030".toList)⟩]
        (["DATA 616263".toList] ++ ("REJECTED EXTERNAL".toList)
          :: ["OK abc".toList])).2
      = (.rejected ("EXTERNAL".toList), ["OK abc".toList]) := by
  have h := c6_rejected_handling
    ⟨"EXTERNAL".toList, "31303030".toList, fun _ => .ok ("DATA 3030".toList)⟩
    ⟨"EXTERNAL".toList, "31303030".toList, fun _ => .ok ("DATA 3030".toList)⟩
    [] ["DATA 616263".toList] ("REJECTED EXTERNAL".toList) ["OK abc".toList]
    (by
      intro d hd
      rw [List.mem_singleton] at hd
      subst hd
      exact ⟨by decide, ⟨"DATA 3030".toList, rfl⟩⟩)
    (by decide)
  exact h.2.2.1.trans (by decide)

/-! ## Watch filter soundness and completeness (C3) -/

/-- `Add` appends the watch to the bucket addressed by its own rule keys and
leaves every other bucket unchanged. -/
theorem bucket_Add (self : signalWatchSet) (w : SWatch)
    (p : ObjectPath) (i mk : String) :
    (self.Add w).bucket p i mk =
      if w.rule.Path = p ∧ w.rule.Interface = i ∧ w.rule.Member = mk
      then self.bucket p i mk ++ [w]
      else self.bucket p i mk := by
  simp only [signalWatchSet.Add, signalWatchSet.bucket, alGet_alSet]
  by_cases hp : w.rule.Path = p
  · by_cases hi : w.rule.Interface = i
    · by_cases hm : w.rule.Member = mk
      · simp [hp, hi, hm, alGet_alSet]
      · simp [hp, hi, hm, alGet_alSet]
    · simp [hp, hi, alGet_alSet]
  · simp [hp]

/-- The empty watch set has empty buckets. -/
theorem bucket_empty (p : ObjectPath) (i mk : String) :
    signalWatchSet.bucket [] p i mk = [] := rfl

/-- Buckets of a set built by folding `Add` hold exactly the watches whose
rule keys address them, in insertion order. -/
theorem bucket_foldl (ws : List SWatch) (self : signalWatchSet)
    (p : ObjectPath) (i mk : String) :
    (ws.foldl signalWatchSet.Add self).bucket p i mk =
      self.bucket p i mk ++ ws.filter fun w =>
        decide (w.rule.Path = p ∧ w.rule.Interface = i ∧ w.rule.Member = mk) := by
  induction ws generalizing self with
  | nil => simp
  | cons w ws ih =>
    rw [List.foldl_cons, ih, bucket_Add, List.filter_cons]
    by_cases h : w.rule.Path = p ∧ w.rule.Interface = i ∧ w.rule.Member = mk
    · simp [h]
    · simp [h]

/-- Membership in `FindMatches` unpacked: some key combination addresses a
bucket containing the watch, and its rule matches the message. -/
theorem mem_FindMatches (self : signalWatchSet) (msg : Message) (w : SWatch) :
    w ∈ self.FindMatches msg ↔
      ∃ p ∈ pathKeys msg, ∃ i ∈ ifaceKeys msg, ∃ mk ∈ memberKeys msg,
        w ∈ self.bucket p i mk ∧ w.rule.Match msg = true := by
  unfold signalWatchSet.FindMatches
  rw [List.mem_flatMap]
  constructor
  · rintro ⟨p, hp, hw⟩
    refine ⟨p, hp, ?_⟩
    rcases h1 : alGet p self with _ | byInterface
    · rw [h1] at hw
      simp at hw
    · rw [h1] at hw
      simp only [List.mem_flatMap] at hw
      obtain ⟨i, hi, hw⟩ := hw
      refine ⟨i, hi, ?_⟩
      rcases h2 : alGet i byInterface with _ | byMember
      · rw [h2] at hw
        simp at hw
      · rw [h2] at hw
        simp only [List.mem_flatMap] at hw
        obtain ⟨mk, hm, hw⟩ := hw
        rcases h3 : alGet mk byMember with _ | watches
        · rw [h3] at hw
          simp at hw
        · rw [h3] at hw
          rw [List.mem_filter] at hw
          exact ⟨mk, hm,
            by simp [signalWatchSet.bucket, h1, h2, h3, hw.1], hw.2⟩
  · rintro ⟨p, hp, i, hi, mk, hm, hwb, hmatch⟩
    refine ⟨p, hp, ?_⟩
    rcases h1 : alGet p self with _ | byInterface
    · exfalso
      simp [signalWatchSet.bucket, h1, alGet] at hwb
    · simp only [h1, List.mem_flatMap]
      refine ⟨i, hi, ?_⟩
      rcases h2 : alGet i byInterface with _ | byMember
      · exfalso
        simp [signalWatchSet.bucket, h1, h2, alGet] at hwb
      · simp only [h2, List.mem_flatMap]
        refine ⟨mk, hm, ?_⟩
        rcases h3 : alGet mk byMember with _ | watches
        · exfalso
          simp [signalWatchSet.bucket, h1, h2, h3, alGet] at hwb
        · simp only [h3]
          rw [List.mem_filter]
          simp only [signalWatchSet.bucket, h1, h2, h3, Option.getD_some] at hwb
          exact ⟨hwb, hmatch⟩

/-- A rule that matches a message is wildcard or equal to the message on
each of the path, interface and member axes. -/
theorem Match_axes (r : MatchRule) (msg : Message)
    (h : r.Match msg = true) :
    (r.Path = "" ∨ r.Path = msg.Path)
    ∧ (r.Interface = "" ∨ r.Interface = msg.Iface)
    ∧ (r.Member = "" ∨ r.Member = msg.Member) := by
  refine ⟨?_, ?_, ?_⟩
  · by_cases hP : r.Path = ""
    · exact Or.inl hP
    · right
      by_contra hne
      have hfalse : r.Match msg = false := by
        unfold MatchRule.Match
        split_ifs <;> simp_all [bne_iff_ne]
      rw [h] at hfalse
      exact absurd hfalse (by simp)
  · by_cases hI : r.Interface = ""
    · exact Or.inl hI
    · right
      by_contra hne
      have hfalse : r.Match msg = false := by
        unfold MatchRule.Match
        split_ifs <;> simp_all [bne_iff_ne]
      rw [h] at hfalse
      exact absurd hfalse (by simp)
  · by_cases hM : r.Member = ""
    · exact Or.inl hM
    · right
      by_contra hne
      have hfalse : r.Match msg = false := by
        unfold MatchRule.Match
        split_ifs <;> simp_all [bne_iff_ne]
      rw [h] at hfalse
      exact absurd hfalse (by simp)

/-- Claim C3: for a `signalWatchSet` built by adding a list of watches, and
any incoming message, `FindMatches(msg)` contains a watch if and only if it
was added and its rule's `Match(msg)` holds (the empty rule fields act as
wildcards on the path/interface/member axes); in particular `FindMatches`
never returns a watch whose `Match(msg)` is false. -/
theorem c3_findMatches_iff (ws : List SWatch) (msg : Message) (w : SWatch) :
    w ∈ (ws.foldl signalWatchSet.Add []).FindMatches msg ↔
      (w ∈ ws ∧ w.rule.Match msg = true) := by
  rw [mem_FindMatches]
  constructor
  · rintro ⟨p, _, i, _, mk, _, hwb, hmatch⟩
    rw [bucket_foldl, bucket_empty, List.nil_append, List.mem_filter] at hwb
    exact ⟨hwb.1, hmatch⟩
  · rintro ⟨hin, hmatch⟩
    obtain ⟨axP, axI, axM⟩ := Match_axes w.rule msg hmatch
    refine ⟨w.rule.Path, ?_, w.rule.Interface, ?_, w.rule.Member, ?_, ?_, hmatch⟩
    · rcases axP with h | h
      · simp [pathKeys, h]
      · by_cases hq : msg.Path = ""
        · simp [pathKeys, h, hq]
        · simp [pathKeys, h, hq]
    · rcases axI with h | h
      · simp [ifaceKeys, h]
      · by_cases hq : msg.Iface = ""
        · simp [ifaceKeys, h, hq]
        · simp [ifaceKeys, h, hq]
    · rcases axM with h | h
      · simp [memberKeys, h]
      · by_cases hq : msg.Member = ""
        · simp [memberKeys, h, hq]
        · simp [memberKeys, h, hq]
    · rw [bucket_foldl, bucket_empty, List.nil_append, List.mem_filter]
      exact ⟨hin, by simp⟩

end GoDBus
